import Mathlib

/-!
Verification development for the silver-rag backend.

Shallow embedding of the parts of the code the specification's claims
are about:

* `app/utils/pdf_splitter.py` — `PDFSplitter.split_if_needed`: pages are
  modelled by their 0-based indices; the serialized byte size of a part
  (what `writer.write` followed by `os.path.getsize` measures) is an
  arbitrary function `measure : List Nat → Nat` supplied as a parameter;
  `totalPages` and `fileSize` stand for `len(reader.pages)` and
  `len(content)`.
* `app/services/document_service.py` — the document repository over an
  in-memory list of rows (`id` is the primary key).
* `app/controllers/document_controller.py` — the exception-to-status
  mapping of the upload and delete handlers.
* `app/services/storage_service.py` — the object store as an association
  list from object key to blob bytes.
* `app/services/storage_service.py` / `app/services/upstage_service.py` —
  the `UploadFile` stream as content plus a read position, to state the
  `finally: await file.seek(0)` behaviour.
-/

namespace SilverRag

/-! ## Splitter (app/utils/pdf_splitter.py) -/

/-- `PDFSplitter.MAX_PAGES`. -/
def MAX_PAGES : Nat := 3

/-- `PDFSplitter.MAX_FILE_SIZE` (50MB in bytes). -/
def MAX_FILE_SIZE : Nat := 50 * 1024 * 1024

/-- Result of `split_if_needed`: either the single original stream
(returned as-is after `file.seek(0)`), or the list of rebuilt parts,
each given by the 0-based indices of the pages it contains. -/
inductive SplitOutcome where
  | original : SplitOutcome
  | parts : List (List Nat) → SplitOutcome
deriving DecidableEq

/-- The inner `while pages_added < pages_this_part and current_page < total_pages`
loop of `split_if_needed`.  `fuel` is `pages_this_part - pages_added`,
`acc` the pages already in the writer, `cur` is `current_page`.
After adding a page, when the writer holds more than one page its
serialized size is measured; if it exceeds `MAX_FILE_SIZE` the most
recently added page is removed again (`current_page -= 1`,
`pages_added -= 1`) and the loop breaks.  Returns the pages of the
finalized part and the new `current_page`. -/
def buildPart (measure : List Nat → Nat) (totalPages : Nat) :
    Nat → List Nat → Nat → List Nat × Nat
  | 0, acc, cur => (acc, cur)
  | fuel + 1, acc, cur =>
    if cur < totalPages then
      if (acc ++ [cur]).length > 1 then
        if measure (acc ++ [cur]) > MAX_FILE_SIZE then
          (acc, cur)
        else
          buildPart measure totalPages fuel (acc ++ [cur]) (cur + 1)
      else
        buildPart measure totalPages fuel (acc ++ [cur]) (cur + 1)
    else (acc, cur)

/-- Planned page count of part `i`:
`pages_this_part = pages_per_part + (1 if i < remaining_pages else 0)`. -/
def plannedPages (pagesPerPart remainingPages i : Nat) : Nat :=
  pagesPerPart + (if i < remainingPages then 1 else 0)

/-- The `for i in range(num_parts)` loop of `split_if_needed`: each
iteration builds one part with `buildPart`, appends it to the output,
and stops early when `current_page >= total_pages`.  `fuel` is the
number of remaining iterations, `i` the part index, `cur` is
`current_page`. -/
def splitLoop (measure : List Nat → Nat) (totalPages pagesPerPart remainingPages : Nat) :
    Nat → Nat → Nat → List (List Nat)
  | 0, _, _ => []
  | fuel + 1, i, cur =>
    (buildPart measure totalPages (plannedPages pagesPerPart remainingPages i) [] cur).1 ::
      (if totalPages ≤ (buildPart measure totalPages (plannedPages pagesPerPart remainingPages i) [] cur).2 then []
       else splitLoop measure totalPages pagesPerPart remainingPages fuel (i + 1)
         (buildPart measure totalPages (plannedPages pagesPerPart remainingPages i) [] cur).2)

/-- `page_parts = (total_pages + MAX_PAGES - 1) // MAX_PAGES`. -/
def pageParts (totalPages : Nat) : Nat :=
  (totalPages + MAX_PAGES - 1) / MAX_PAGES

/-- `num_parts` as computed by `split_if_needed`:
start from `page_parts`; if `file_size / num_parts > MAX_FILE_SIZE`
(exact division — stated here as `MAX_FILE_SIZE * page_parts < file_size`),
take `max(size_parts, page_parts)` with
`size_parts = (file_size + MAX_FILE_SIZE - 1) // MAX_FILE_SIZE`. -/
def numParts (totalPages fileSize : Nat) : Nat :=
  let pp := pageParts totalPages
  if MAX_FILE_SIZE * pp < fileSize then
    max ((fileSize + MAX_FILE_SIZE - 1) / MAX_FILE_SIZE) pp
  else pp

/-- `PDFSplitter.split_if_needed`.  The second component is the final
read position of the uploaded stream: `await file.read()` leaves it at
`fileSize`; the no-split branch runs `await file.seek(0)`, the splitting
branch does not touch it again. -/
def split_if_needed (measure : List Nat → Nat) (totalPages fileSize : Nat) :
    SplitOutcome × Nat :=
  let np := numParts totalPages fileSize
  if np = 1 then (SplitOutcome.original, 0)
  else
    (SplitOutcome.parts
      (splitLoop measure totalPages (totalPages / np) (totalPages % np) np 0 0),
     fileSize)

/-- Per-page serialized sizes for the rollback scenario: a 4-page PDF
whose pages serialize to 40MB, 30MB, 1KB and 1KB. -/
def pageSizesRB : List Nat := [40 * 1024 * 1024, 30 * 1024 * 1024, 1024, 1024]

/-- Serialized size of a part in the rollback scenario: the sum of its
pages' sizes. -/
def measureRB (l : List Nat) : Nat := (l.map fun i => pageSizesRB.getD i 0).sum

/-- Total byte size of the rollback-scenario file. -/
def fileSizeRB : Nat := pageSizesRB.sum

/-- Per-page serialized sizes for the oversized-single-page scenario:
one page of 60MB. -/
def pageSizesBig : List Nat := [60 * 1024 * 1024]

/-- Serialized size of a part in the oversized-single-page scenario. -/
def measureBig (l : List Nat) : Nat := (l.map fun i => pageSizesBig.getD i 0).sum

/-- A size function for small documents: every page serializes to one
byte, so a part's size is its page count. -/
def measureTiny (l : List Nat) : Nat := l.length

/-! ## Document repository (app/services/document_service.py)

A `DocumentDB` row.  `id` is the primary key assigned by the database,
timestamps are modelled as natural numbers, `deleted_at` is the nullable
soft-delete column. -/

structure Doc where
  id : Nat
  filename : String
  gcs_document_id : String
  html_content : String
  markdown_content : String
  dify_document_id : String
  dify_upload_file_id : String
  created_at : Nat
  deleted_at : Option Nat
deriving DecidableEq

/-- The database state: the `documents` table as a list of rows. -/
def DocTable := List Doc

/-- `session.get(DocumentDB, document_id)`: primary-key lookup.  `id` is
the primary key, so at most one row matches; on a list this is the first
row with that id. -/
def sessionGet (db : List Doc) (document_id : Nat) : Option Doc :=
  db.find? fun d => d.id == document_id

/-- `DocumentService.get_document`: primary-key lookup, returning `None`
when the row is missing or its `deleted_at` is set
(`if not query or query.deleted_at: return None`). -/
def get_document (db : List Doc) (document_id : Nat) : Option Doc :=
  match sessionGet db document_id with
  | none => none
  | some d => if d.deleted_at.isSome then none else some d

/-- Error raised when `scalar_one_or_none` finds more than one row
(caught and re-raised as `DatabaseError`). -/
inductive DbError where
  | multipleResults : DbError
deriving DecidableEq

/-- `DocumentService.get_document_by_gcs_id`:
`select(DocumentDB).where(gcs_document_id == gid, deleted_at.is_(None))`
followed by `scalar_one_or_none`. -/
def get_document_by_gcs_id (db : List Doc) (gid : String) :
    Except DbError (Option Doc) :=
  match db.filter fun d => d.gcs_document_id == gid && d.deleted_at.isNone with
  | [] => Except.ok none
  | [d] => Except.ok (some d)
  | _ => Except.error DbError.multipleResults

/-- `DocumentService.get_document_by_dify_id`:
`select(DocumentDB).where(dify_document_id == did, deleted_at.is_(None))`
followed by `scalar_one_or_none`. -/
def get_document_by_dify_id (db : List Doc) (did : String) :
    Except DbError (Option Doc) :=
  match db.filter fun d => d.dify_document_id == did && d.deleted_at.isNone with
  | [] => Except.ok none
  | [d] => Except.ok (some d)
  | _ => Except.error DbError.multipleResults

/-- Set `deleted_at` on the row found by `session.get`, i.e. the first
row carrying the primary key `document_id`. -/
def setDeletedAt : List Doc → Nat → Nat → List Doc
  | [], _, _ => []
  | d :: ds, document_id, now =>
    if d.id == document_id then { d with deleted_at := some now } :: ds
    else d :: setDeletedAt ds document_id now

/-- `DocumentService.soft_delete_document`: primary-key lookup; if the
row is missing or already has `deleted_at` set, return `False` without
touching the table; otherwise set `deleted_at = datetime.utcnow()`
(modelled by `now`), commit and return `True`. -/
def soft_delete_document (db : List Doc) (document_id : Nat) (now : Nat) :
    Bool × List Doc :=
  match sessionGet db document_id with
  | none => (false, db)
  | some d =>
    if d.deleted_at.isSome then (false, db)
    else (true, setDeletedAt db document_id now)

/-- One entry of the `document_list` built by `list_documents`
(the dict literal excluding `html_content`, with `markdown_content`
truncated to 300 characters). -/
structure DocListItem where
  id : Nat
  filename : String
  gcs_document_id : String
  markdown_content : String
  dify_document_id : String
  dify_upload_file_id : String
  created_at : Nat
deriving DecidableEq

/-- `doc.markdown_content[:300] + '...' if len(...) > 300 else ...`. -/
def truncatedMarkdown (s : String) : String :=
  if s.length > 300 then String.append (s.take 300) "..." else s

/-- The dict returned by `DocumentService.list_documents`. -/
structure DocListPage where
  items : List DocListItem
  total : Nat
  page : Nat
  page_size : Nat
  total_pages : Nat
deriving DecidableEq

/-- `ORDER BY created_at DESC` as a comparison relation on rows. -/
def createdDesc (a b : Doc) : Prop := b.created_at ≤ a.created_at

instance : DecidableRel createdDesc := fun a b =>
  inferInstanceAs (Decidable (b.created_at ≤ a.created_at))

instance : IsTotal Doc createdDesc :=
  ⟨fun a b => Nat.le_total b.created_at a.created_at⟩

instance : IsTrans Doc createdDesc :=
  ⟨fun _ _ _ hab hbc => Nat.le_trans hbc hab⟩

/-- `DocumentService.list_documents`: count the live rows, select the
live rows ordered by `created_at` descending, apply
`offset = (page - 1) * page_size` and `limit page_size`, project each
row to its list entry, and return items with the page metadata
(`total_pages = (total_count + page_size - 1) // page_size`). -/
def list_documents (db : List Doc) (page page_size : Nat) : DocListPage :=
  let live := db.filter fun d => d.deleted_at.isNone
  let offset := (page - 1) * page_size
  let total_count := live.length
  let ordered := live.insertionSort createdDesc
  let docs := (ordered.drop offset).take page_size
  { items := docs.map fun d =>
      { id := d.id
        filename := d.filename
        gcs_document_id := d.gcs_document_id
        markdown_content := truncatedMarkdown d.markdown_content
        dify_document_id := d.dify_document_id
        dify_upload_file_id := d.dify_upload_file_id
        created_at := d.created_at }
    total := total_count
    page := page
    page_size := page_size
    total_pages := (total_count + page_size - 1) / page_size }

/-! ## HTTP error mapping (app/controllers/document_controller.py) -/

/-- The exceptions that can reach the controllers' `except` chains.
`ServiceError` is the base class of `StorageError`, `UpstageAPIError`,
`DifyAPIError` and `DatabaseError` (app/exceptions.py); `httpException`
carries its own status code; `otherException` is any exception outside
the hierarchy. -/
inductive PyExc where
  | storageError : PyExc
  | upstageAPIError : PyExc
  | difyAPIError : PyExc
  | databaseError : PyExc
  | serviceError : PyExc
  | httpException : Nat → PyExc
  | otherException : PyExc
deriving DecidableEq

/-- `isinstance(e, ServiceError)`. -/
def isServiceError : PyExc → Bool
  | PyExc.storageError => true
  | PyExc.upstageAPIError => true
  | PyExc.difyAPIError => true
  | PyExc.databaseError => true
  | PyExc.serviceError => true
  | _ => false

/-- Status code of the `HTTPException` produced by `upload_document`
when exception `e` escapes the per-part processing loop.  Inner
handlers in source order: `DifyAPIError → 500`, `DatabaseError → 400`,
`UpstageAPIError → 400`, `ServiceError → raise` (re-raised, caught by
the outer `except ServiceError → 400`); then `HTTPException` passes
through unchanged and any other exception yields status 500 (the code
`return`s rather than raises that last `HTTPException(500)`, but its
status code is 500). -/
def upload_error_status (e : PyExc) : Nat :=
  match e with
  | PyExc.difyAPIError => 500
  | PyExc.databaseError => 400
  | PyExc.upstageAPIError => 400
  | PyExc.httpException s => s
  | e' => if isServiceError e' then 400 else 500

/-- Status code of the `HTTPException` raised by `delete_document` for
exception `e`; a missing/soft-deleted document raises
`HTTPException(404)` which passes through.  Handlers in source order:
`HTTPException → raise`, `DatabaseError → 400`, `ServiceError → 500`,
`Exception → 500`. -/
def delete_error_status (e : PyExc) : Nat :=
  match e with
  | PyExc.httpException s => s
  | PyExc.databaseError => 400
  | _ => 500

/-! ## Object storage (app/services/storage_service.py)

The bucket as an association list from object key (blob name) to blob
content. -/

/-- Bucket contents: `(blob name, bytes)` pairs. -/
def Bucket := List (String × List Nat)

/-- Key prefix match, on the characters of the two strings. -/
def keyHasPfx (pfx key : String) : Bool :=
  pfx.data.isPrefixOf key.data

/-- `StorageService.upload_file`: generate a fresh `document_id`
(a UUID, supplied here as `docId`), store the content at blob name
`f"{document_id}/{file.filename}"`, and return the id. -/
def upload_file_store (store : List (String × List Nat)) (docId filename : String)
    (content : List Nat) : String × List (String × List Nat) :=
  (docId, store ++ [(String.append docId (String.append "/" filename), content)])

/-- `StorageService.get_file`: list the blobs under `f"{document_id}/"`
and return the first one's content, or `None` when there is none. -/
def get_file (store : List (String × List Nat)) (docId : String) :
    Option (List Nat) :=
  match (store.filter fun kv => keyHasPfx (String.append docId "/") kv.1) with
  | [] => none
  | kv :: _ => some kv.2

/-- `StorageService.delete_file`: iterate over the blobs under
`f"documents/{document_id}/"`, delete each, and return whether any blob
was deleted. -/
def delete_file (store : List (String × List Nat)) (docId : String) :
    Bool × List (String × List Nat) :=
  let pfx := String.append "documents/" (String.append docId "/")
  (store.any fun kv => keyHasPfx pfx kv.1,
   store.filter fun kv => !keyHasPfx pfx kv.1)

/-! ## Upload streams (app/services/storage_service.py,
app/services/upstage_service.py) -/

/-- An `UploadFile` stream: its bytes and the current read position. -/
structure FileStream where
  content : List Nat
  pos : Nat
deriving DecidableEq

/-- `await file.read()`: return the bytes from the current position and
leave the position at end of file. -/
def streamRead (fs : FileStream) : List Nat × FileStream :=
  (fs.content.drop fs.pos, { fs with pos := fs.content.length })

/-- `await file.seek(0)`. -/
def streamSeekStart (fs : FileStream) : FileStream :=
  { fs with pos := 0 }

/-- `StorageService.upload_file` seen from the stream: read the whole
content, attempt the network upload (`netOk` says whether
`blob.upload_from_string` succeeds; on failure a `StorageError` is
raised), and in all cases run `finally: await file.seek(0)`.  Returns
the outcome (`ok document_id` or the error) and the stream as the
caller sees it afterwards. -/
def upload_file_stream (docId : String) (netOk : Bool) (fs : FileStream) :
    Except Unit String × FileStream :=
  let rd := streamRead fs
  let result : Except Unit String := if netOk then Except.ok docId else Except.error ()
  (result, streamSeekStart rd.2)

/-- `UpstageService.parse_document` seen from the stream: read the whole
content, post it to the OCR endpoint (`net` is the provider's answer:
`ok (html, markdown)` or an error status turned into an
`UpstageAPIError`), and in all cases run
`finally: await file.seek(0)`. -/
def parse_document_stream (net : Except Nat (String × String)) (fs : FileStream) :
    Except Unit (String × String) × FileStream :=
  let rd := streamRead fs
  let result : Except Unit (String × String) :=
    match net with
    | Except.ok hm => Except.ok hm
    | Except.error _ => Except.error ()
  (result, streamSeekStart rd.2)

/-! ## Sample data used in concrete instances -/

/-- A live document row. -/
def docA : Doc :=
  { id := 1, filename := "a.pdf", gcs_document_id := "g1",
    html_content := "<p>x</p>", markdown_content := "x",
    dify_document_id := "d1", dify_upload_file_id := "u1",
    created_at := 10, deleted_at := none }

/-- A soft-deleted document row. -/
def docB : Doc :=
  { id := 2, filename := "b.pdf", gcs_document_id := "g2",
    html_content := "<p>y</p>", markdown_content := "y",
    dify_document_id := "d2", dify_upload_file_id := "u2",
    created_at := 20, deleted_at := some 30 }

/-- A two-row table: one live document, one soft-deleted document. -/
def dbAB : List Doc := [docA, docB]

/-- The list entry `list_documents` produces for `docA`. -/
def itemA : DocListItem :=
  { id := 1, filename := "a.pdf", gcs_document_id := "g1",
    markdown_content := "x", dify_document_id := "d1",
    dify_upload_file_id := "u1", created_at := 10 }

/-- A table of 25 live documents with distinct creation times. -/
def dbBig : List Doc :=
  (List.range 25).map fun i =>
    { id := i + 1, filename := "a.pdf", gcs_document_id := "g",
      html_content := "", markdown_content := "x",
      dify_document_id := "d", dify_upload_file_id := "u",
      created_at := i, deleted_at := none }

/-- Bytes of a sample uploaded blob. -/
def blobContent : List Nat := [1, 2, 3]

/-! ## Theorems -/

/-- C10: for every input file stream, the storage upload operation and
the OCR parse operation each reset the stream position to the start
before returning, on both the success path and every error path
(`finally: await file.seek(0)`), and leave the stream's bytes
unchanged, so the next pipeline stage reads the same bytes from
position 0. -/
theorem c10_stream_position_reset (docId : String) (netOk : Bool)
    (net : Except Nat (String × String)) (fs : FileStream) :
    (upload_file_stream docId netOk fs).2.pos = 0
    ∧ (upload_file_stream docId netOk fs).2.content = fs.content
    ∧ (parse_document_stream net fs).2.pos = 0
    ∧ (parse_document_stream net fs).2.content = fs.content :=
  ⟨rfl, rfl, rfl, rfl⟩

/-- C9 (code evaluated at the failing input): uploading `a.pdf` into an
empty bucket under the fresh identifier `u1` stores the blob at key
`u1/a.pdf`; the subsequent `delete_file "u1"`, which scans the key
prefix `documents/u1/`, matches nothing: it reports `false` and leaves
the blob in place (retrieval still finds it), contradicting the claim
that deletion with the identifier returned by upload removes the object
and reports `true`.  Deletion under an identifier with no stored object
reports `false`, as claimed. -/
theorem c9_delete_misses_uploaded_object :
    upload_file_store [] "u1" "a.pdf" blobContent
      = ("u1", [("u1/a.pdf", blobContent)])
    ∧ delete_file [("u1/a.pdf", blobContent)] "u1"
      = (false, [("u1/a.pdf", blobContent)])
    ∧ get_file [("u1/a.pdf", blobContent)] "u1" = some blobContent
    ∧ delete_file [] "u1" = (false, []) := by
  refine ⟨rfl, ?_, ?_, rfl⟩ <;> decide

/-- C8 (counterexample): a `DatabaseError` reaching the HTTP layer
during document upload or deletion is mapped to status 400, not 500 as
the claim states. -/
theorem c8_database_error_counterexample :
    upload_error_status PyExc.databaseError = 400
    ∧ delete_error_status PyExc.databaseError = 400
    ∧ upload_error_status PyExc.databaseError ≠ 500 := by
  decide

/-- C8 (amended): the upload handler maps indexing (Dify) errors to
500, database, OCR (Upstage), storage and other service errors to 400,
lets `HTTPException`s keep their own status, and maps unexpected
exceptions to 500; the delete handler lets `HTTPException`s keep their
status (404 for a missing document), maps database errors to 400, and
maps every other service error as well as unexpected exceptions
to 500. -/
theorem c8_error_status_mapping :
    upload_error_status PyExc.difyAPIError = 500
    ∧ upload_error_status PyExc.databaseError = 400
    ∧ upload_error_status PyExc.upstageAPIError = 400
    ∧ upload_error_status PyExc.storageError = 400
    ∧ upload_error_status PyExc.serviceError = 400
    ∧ upload_error_status PyExc.otherException = 500
    ∧ (∀ s, upload_error_status (PyExc.httpException s) = s)
    ∧ delete_error_status (PyExc.httpException 404) = 404
    ∧ delete_error_status PyExc.databaseError = 400
    ∧ delete_error_status PyExc.serviceError = 500
    ∧ delete_error_status PyExc.storageError = 500
    ∧ delete_error_status PyExc.upstageAPIError = 500
    ∧ delete_error_status PyExc.otherException = 500
    ∧ (∀ s, delete_error_status (PyExc.httpException s) = s) :=
  ⟨rfl, rfl, rfl, rfl, rfl, rfl, fun _ => rfl,
   rfl, rfl, rfl, rfl, rfl, rfl, fun _ => rfl⟩

/-- C1 (code evaluated at the failing input): a 4-page PDF with pages
serializing to 40MB, 30MB, 1KB and 1KB (total 73402368 bytes) is
planned as 2 parts; the size-based rollback triggers on part 1 after
its second page, and the splitter returns parts `[[0], [1, 2]]` — only
3 of the 4 pages: page 3 is dropped, contradicting the claim that the
per-part page counts sum to the original total even when the rollback
triggers. -/
theorem c1_rollback_drops_last_page :
    split_if_needed measureRB 4 fileSizeRB
      = (SplitOutcome.parts [[0], [1, 2]], fileSizeRB)
    ∧ (([[0], [1, 2]] : List (List Nat)).map List.length).sum = 3
    ∧ (3 : Nat) ≠ 4 := by
  refine ⟨?_, by decide, by decide⟩
  decide

/-- C2 (counterexample): a 1-page, 60MB PDF is planned as 2 parts; the
only part the splitter can build holds the single 60MB page, whose
serialized size exceeds `MAX_FILE_SIZE` — the size check only runs once
a part holds at least two pages, so the claimed bound fails for
adversarially large single pages. -/
theorem c2_oversized_single_page_counterexample :
    (split_if_needed measureBig 1 (60 * 1024 * 1024)).1
      = SplitOutcome.parts [[0]]
    ∧ MAX_FILE_SIZE < measureBig [0] := by
  refine ⟨?_, by decide⟩
  decide

/-- C3: a PDF with at least one and at most `MAX_PAGES` pages whose
byte size is at most `MAX_FILE_SIZE` is planned as a single part, and
`split_if_needed` returns the original stream with its read position
reset to 0. -/
theorem c3_small_pdf_returned_unsplit (measure : List Nat → Nat) (T B : Nat)
    (h1 : 1 ≤ T) (h2 : T ≤ MAX_PAGES) (h3 : B ≤ MAX_FILE_SIZE) :
    split_if_needed measure T B = (SplitOutcome.original, 0) := by
  have hpp : pageParts T = 1 := by
    unfold pageParts MAX_PAGES at *
    omega
  have hnp : numParts T B = 1 := by
    unfold numParts
    rw [hpp]
    have hcond : ¬ MAX_FILE_SIZE * 1 < B := by
      unfold MAX_FILE_SIZE at *
      omega
    rw [if_neg hcond]
  unfold split_if_needed
  rw [hnp]
  simp

/-- Invariant of the inner page-adding loop: starting from a writer
whose content is a single page or already fits in `MAX_FILE_SIZE`, the
finalized part again holds a single page or fits — every time a second
or later page is added the measured size is checked, and an oversized
writer is rolled back to its previously checked state. -/
theorem buildPart_size_invariant (measure : List Nat → Nat) (T : Nat) :
    ∀ fuel acc cur, acc.length ≤ 1 ∨ measure acc ≤ MAX_FILE_SIZE →
      ((buildPart measure T fuel acc cur).1.length ≤ 1
        ∨ measure (buildPart measure T fuel acc cur).1 ≤ MAX_FILE_SIZE) := by
  intro fuel
  induction fuel with
  | zero => intro acc cur h; simpa [buildPart] using h
  | succ n ih =>
    intro acc cur h
    rw [buildPart]
    by_cases hc : cur < T
    · rw [if_pos hc]
      by_cases hl : (acc ++ [cur]).length > 1
      · rw [if_pos hl]
        by_cases hm : measure (acc ++ [cur]) > MAX_FILE_SIZE
        · rw [if_pos hm]
          exact h
        · rw [if_neg hm]
          exact ih _ _ (Or.inr (by omega))
      · rw [if_neg hl]
        refine ih _ _ (Or.inl ?_)
        simp only [List.length_append, List.length_cons, List.length_nil] at hl ⊢
        omega
    · rw [if_neg hc]
      exact h

/-- Every part emitted by the splitting loop holds a single page or
fits in `MAX_FILE_SIZE`: each part starts from an empty writer, which
satisfies the `buildPart` invariant. -/
theorem splitLoop_size_invariant (measure : List Nat → Nat) (T ppp rem : Nat) :
    ∀ fuel i cur part, part ∈ splitLoop measure T ppp rem fuel i cur →
      part.length ≤ 1 ∨ measure part ≤ MAX_FILE_SIZE := by
  intro fuel
  induction fuel with
  | zero => intro i cur part h; simp [splitLoop] at h
  | succ n ih =>
    intro i cur part h
    rw [splitLoop] at h
    rcases List.mem_cons.mp h with h1 | h2
    · subst h1
      exact buildPart_size_invariant measure T _ [] cur (Or.inl (by simp))
    · by_cases hend : T ≤ (buildPart measure T (plannedPages ppp rem i) [] cur).2
      · rw [if_pos hend] at h2
        simp at h2
      · rw [if_neg hend] at h2
        exact ih _ _ _ h2

/-- C2 (amended): every part the splitter returns that contains at
least two pages has serialized size at most `MAX_FILE_SIZE` — the
rollback invariant holds for multi-page parts; single-page parts are
never size-checked. -/
theorem c2_two_page_parts_bounded (measure : List Nat → Nat) (T B : Nat)
    (ps : List (List Nat)) (part : List Nat)
    (hps : (split_if_needed measure T B).1 = SplitOutcome.parts ps)
    (hmem : part ∈ ps) (hlen : 2 ≤ part.length) :
    measure part ≤ MAX_FILE_SIZE := by
  simp only [split_if_needed] at hps
  split at hps
  · simp at hps
  · simp only [SplitOutcome.parts.injEq] at hps
    subst hps
    rcases splitLoop_size_invariant measure T _ _ _ _ _ part hmem with h | h
    · omega
    · exact h

/-- C2 witness: in the 7-page split `[[0,1,2],[3,4],[5,6]]` produced
for a small file, the first part has three pages and its size is within
the bound. -/
theorem c2_witness :
    (split_if_needed measureTiny 7 1024).1
      = SplitOutcome.parts [[0, 1, 2], [3, 4], [5, 6]]
    ∧ [0, 1, 2] ∈ [[0, 1, 2], [3, 4], [5, 6]]
    ∧ 2 ≤ ([0, 1, 2] : List Nat).length
    ∧ measureTiny [0, 1, 2] ≤ MAX_FILE_SIZE := by
  refine ⟨by decide, by decide, by decide, ?_⟩
  exact c2_two_page_parts_bounded measureTiny 7 1024 [[0, 1, 2], [3, 4], [5, 6]]
    [0, 1, 2] (by decide) (by decide) (by decide)

/-- The planned page counts over `n` parts add up to `n * q + min r n`
where `q` pages go to every part and the first `r` parts get one
extra page. -/
theorem plannedPages_range_sum (q r : Nat) :
    ∀ n, ((List.range n).map fun i => plannedPages q r i).sum = n * q + min r n := by
  intro n
  induction n with
  | zero => simp
  | succ n ih =>
    rw [List.range_succ, List.map_append, List.sum_append]
    simp only [List.map_cons, List.map_nil, List.sum_cons, List.sum_nil]
    rw [ih]
    unfold plannedPages
    rw [Nat.succ_mul]
    by_cases h : n < r
    · rw [if_pos h]
      omega
    · rw [if_neg h]
      omega

/-- A PDF with at least one page is always planned as at least one
part. -/
theorem one_le_numParts (T B : Nat) (h : 1 ≤ T) : 1 ≤ numParts T B := by
  simp only [numParts, pageParts, MAX_PAGES, MAX_FILE_SIZE]
  split <;> omega

/-- C4: `pageParts` is `ceil(T / MAX_PAGES)` (characterized by its
Galois property); when the exact per-part size estimate
`B / pageParts` exceeds `MAX_FILE_SIZE` the part count becomes
`max(pageParts, ceil(B / MAX_FILE_SIZE))` and otherwise stays
`pageParts`; the planned page counts (`T // numParts` per part, one
extra for the first `T % numParts` parts) distribute exactly the `T`
pages; and a 7-page small PDF is split into parts `[[0,1,2],[3,4],[5,6]]`
with page distribution `[3, 2, 2]`. -/
theorem c4_part_count_and_distribution :
    (∀ T B : Nat, 1 ≤ T →
      (∀ k, pageParts T ≤ k ↔ T ≤ MAX_PAGES * k)
      ∧ (MAX_FILE_SIZE * pageParts T < B →
          numParts T B
            = max (pageParts T) ((B + MAX_FILE_SIZE - 1) / MAX_FILE_SIZE)
          ∧ ∀ k, (B + MAX_FILE_SIZE - 1) / MAX_FILE_SIZE ≤ k
              ↔ B ≤ MAX_FILE_SIZE * k)
      ∧ (B ≤ MAX_FILE_SIZE * pageParts T → numParts T B = pageParts T)
      ∧ ((List.range (numParts T B)).map
          (fun i => plannedPages (T / numParts T B) (T % numParts T B) i)).sum = T)
    ∧ split_if_needed measureTiny 7 1024
        = (SplitOutcome.parts [[0, 1, 2], [3, 4], [5, 6]], 1024)
    ∧ ([[0, 1, 2], [3, 4], [5, 6]] : List (List Nat)).map List.length = [3, 2, 2] := by
  refine ⟨?_, by decide, by decide⟩
  intro T B hT
  refine ⟨?_, ?_, ?_, ?_⟩
  · intro k
    simp only [pageParts, MAX_PAGES]
    omega
  · intro hover
    refine ⟨?_, ?_⟩
    · simp only [numParts]
      rw [if_pos hover, Nat.max_comm]
    · intro k
      simp only [MAX_FILE_SIZE] at *
      omega
  · intro hunder
    simp only [numParts]
    rw [if_neg (by omega)]
  · have h1 : 1 ≤ numParts T B := one_le_numParts T B hT
    rw [plannedPages_range_sum]
    have hdm := Nat.div_add_mod T (numParts T B)
    have hlt : T % numParts T B < numParts T B := Nat.mod_lt _ (by omega)
    omega

/-- C4 witness: for the 7-page, 1KB PDF the page-driven part count is
decisive, and the plan distributes all 7 pages. -/
theorem c4_witness :
    (pageParts 7 ≤ 3 ↔ 7 ≤ MAX_PAGES * 3)
    ∧ numParts 7 1024 = pageParts 7
    ∧ ((List.range (numParts 7 1024)).map
        (fun i => plannedPages (7 / numParts 7 1024) (7 % numParts 7 1024) i)).sum = 7 := by
  have h := c4_part_count_and_distribution.1 7 1024 (by decide)
  exact ⟨h.1 3, h.2.2.1 (by decide), h.2.2.2⟩

/-- Updating the `deleted_at` column of the row `session.get` found
makes the subsequent primary-key lookup return that row with its
timestamp set. -/
theorem sessionGet_setDeletedAt (db : List Doc) (document_id now : Nat) (d : Doc)
    (h : sessionGet db document_id = some d) :
    sessionGet (setDeletedAt db document_id now) document_id
      = some { d with deleted_at := some now } := by
  induction db with
  | nil => simp [sessionGet] at h
  | cons e ds ih =>
    rw [sessionGet, List.find?_cons_eq_some] at h
    by_cases he : e.id = document_id
    · have hbeq : (e.id == document_id) = true := by simp [he]
      rcases h with ⟨_, rfl⟩ | ⟨hf, _⟩
      · simp only [setDeletedAt]
        rw [if_pos hbeq, sessionGet]
        have step :
            List.find? (fun x => x.id == document_id)
                ({ e with deleted_at := some now } :: ds)
              = some { e with deleted_at := some now } :=
          List.find?_cons_of_pos _ hbeq
        exact step
      · simp [hbeq] at hf
    · have hneg : ¬ ((e.id == document_id) = true) := by simp [he]
      rcases h with ⟨hp, _⟩ | ⟨_, hf⟩
      · exact absurd hp hneg
      · simp only [setDeletedAt]
        rw [if_neg hneg, sessionGet]
        have step :
            List.find? (fun x => x.id == document_id)
                (e :: setDeletedAt ds document_id now)
              = List.find? (fun x => x.id == document_id)
                  (setDeletedAt ds document_id now) :=
          List.find?_cons_of_neg _ hneg
        rw [step]
        exact ih hf

/-- C5: soft-deleting a missing document or an already-soft-deleted
document returns `False` and leaves the table unchanged; soft-deleting
an existing live document returns `True` and sets its deletion
timestamp. -/
theorem c5_soft_delete_idempotent (db : List Doc) (document_id now : Nat) :
    (sessionGet db document_id = none →
      soft_delete_document db document_id now = (false, db))
    ∧ (∀ d, sessionGet db document_id = some d → d.deleted_at.isSome →
        soft_delete_document db document_id now = (false, db))
    ∧ (∀ d, sessionGet db document_id = some d → d.deleted_at = none →
        (soft_delete_document db document_id now).1 = true
        ∧ sessionGet (soft_delete_document db document_id now).2 document_id
            = some { d with deleted_at := some now }) := by
  refine ⟨?_, ?_, ?_⟩
  · intro h
    simp [soft_delete_document, h]
  · intro d h hdel
    simp [soft_delete_document, h, hdel]
  · intro d h hlive
    have hns : d.deleted_at.isSome = false := by simp [hlive]
    constructor
    · simp [soft_delete_document, h, hns]
    · simp only [soft_delete_document, h, hns, Bool.false_eq_true, if_false]
      exact sessionGet_setDeletedAt db document_id now d h

/-- C5 witness: in the two-row table, deleting the live row 1 returns
`True` and stamps it; deleting the already-deleted row 2 and the
missing row 99 both return `False` and leave the table unchanged. -/
theorem c5_witness :
    sessionGet dbAB 1 = some docA
    ∧ docA.deleted_at = none
    ∧ (soft_delete_document dbAB 1 5).1 = true
    ∧ sessionGet (soft_delete_document dbAB 1 5).2 1
        = some { docA with deleted_at := some 5 }
    ∧ sessionGet dbAB 2 = some docB
    ∧ docB.deleted_at.isSome
    ∧ soft_delete_document dbAB 2 7 = (false, dbAB)
    ∧ sessionGet dbAB 99 = none
    ∧ soft_delete_document dbAB 99 7 = (false, dbAB) := by
  have h1 := c5_soft_delete_idempotent dbAB 1 5
  have h2 := c5_soft_delete_idempotent dbAB 2 7
  have h3 := c5_soft_delete_idempotent dbAB 99 7
  refine ⟨by decide, by decide, (h1.2.2 docA (by decide) (by decide)).1,
    (h1.2.2 docA (by decide) (by decide)).2, by decide, by decide,
    h2.2.1 docB (by decide) (by decide), by decide, h3.1 (by decide)⟩

/-- With unique primary keys, the primary-key lookup of a row in the
table returns exactly that row. -/
theorem sessionGet_of_mem_nodup (db : List Doc) (d : Doc)
    (hmem : d ∈ db) (hid : (db.map Doc.id).Nodup) :
    sessionGet db d.id = some d := by
  induction db with
  | nil => cases hmem
  | cons e ds ih =>
    simp only [List.map_cons, List.nodup_cons] at hid
    rcases List.mem_cons.mp hmem with rfl | hmem'
    · rw [sessionGet]
      have step : List.find? (fun x => x.id == d.id) (d :: ds) = some d :=
        List.find?_cons_of_pos _ (by simp)
      exact step
    · have hne : ¬ (e.id == d.id) = true := by
        simp only [beq_iff_eq]
        intro hcontra
        exact hid.1 (hcontra ▸ List.mem_map.mpr ⟨d, hmem', rfl⟩)
      rw [sessionGet]
      have step :
          List.find? (fun x => x.id == d.id) (e :: ds)
            = List.find? (fun x => x.id == d.id) ds :=
        List.find?_cons_of_neg _ hne
      rw [step]
      exact ih hmem' hid.2

/-- When the column `f` is unique across rows and `d` is soft-deleted,
the live rows matching `f d` form the empty selection. -/
theorem filter_live_eq_nil_of_unique (db : List Doc) (d : Doc) (f : Doc → String)
    (hmem : d ∈ db) (hdel : d.deleted_at.isSome)
    (hnd : (db.map f).Nodup) :
    db.filter (fun e => f e == f d && e.deleted_at.isNone) = [] := by
  rw [List.filter_eq_nil_iff]
  intro e hedb hp
  simp only [Bool.and_eq_true, beq_iff_eq] at hp
  have heq : e = d := List.inj_on_of_nodup_map hnd hedb hmem hp.1
  subst heq
  rcases Option.isSome_iff_exists.mp hdel with ⟨x, hx⟩
  rw [hx] at hp
  simp at hp

/-- Every entry of a `list_documents` page is the projection of a live
row of the table. -/
theorem list_documents_item_src (db : List Doc) (page page_size : Nat)
    (it : DocListItem) (hit : it ∈ (list_documents db page page_size).items) :
    ∃ e, e ∈ db ∧ e.deleted_at.isNone = true ∧ it.id = e.id := by
  simp only [list_documents] at hit
  rcases List.mem_map.mp hit with ⟨e, he, rfl⟩
  have he1 : e ∈ (db.filter fun x => x.deleted_at.isNone).insertionSort createdDesc :=
    List.mem_of_mem_drop (List.mem_of_mem_take he)
  have he2 : e ∈ db.filter fun x => x.deleted_at.isNone :=
    (List.perm_insertionSort createdDesc _).mem_iff.mp he1
  have he3 := List.mem_filter.mp he2
  exact ⟨e, he3.1, he3.2, rfl⟩

/-- C6: a soft-deleted document is logically absent from every lookup
and from the paginated listing — given that ids, storage ids and
index ids are unique across rows, lookup by its id, storage id or
index id returns not-found, the listing's total counts only live rows,
and no listed entry carries its id. -/
theorem c6_soft_deleted_invisible (db : List Doc) (d : Doc)
    (hmem : d ∈ db) (hdel : d.deleted_at.isSome)
    (hid : (db.map Doc.id).Nodup)
    (hgcs : (db.map Doc.gcs_document_id).Nodup)
    (hdify : (db.map Doc.dify_document_id).Nodup) :
    get_document db d.id = none
    ∧ get_document_by_gcs_id db d.gcs_document_id = Except.ok none
    ∧ get_document_by_dify_id db d.dify_document_id = Except.ok none
    ∧ ∀ page page_size,
        (list_documents db page page_size).total
          = (db.filter fun e => e.deleted_at.isNone).length
        ∧ ∀ it ∈ (list_documents db page page_size).items, it.id ≠ d.id := by
  refine ⟨?_, ?_, ?_, ?_⟩
  · rw [get_document, sessionGet_of_mem_nodup db d hmem hid]
    simp [hdel]
  · rw [get_document_by_gcs_id,
      filter_live_eq_nil_of_unique db d Doc.gcs_document_id hmem hdel hgcs]
  · rw [get_document_by_dify_id,
      filter_live_eq_nil_of_unique db d Doc.dify_document_id hmem hdel hdify]
  · intro page page_size
    refine ⟨rfl, ?_⟩
    intro it hit hcontra
    obtain ⟨e, hedb, helive, hide⟩ :=
      list_documents_item_src db page page_size it hit
    have heq : e = d :=
      List.inj_on_of_nodup_map hid hedb hmem (by rw [← hide, hcontra])
    subst heq
    rcases Option.isSome_iff_exists.mp hdel with ⟨x, hx⟩
    rw [hx] at helive
    simp at helive

/-- C6 witness: in the two-row table, the soft-deleted row 2 is
invisible to all three lookups and to the listing, while the live
row 1 is listed. -/
theorem c6_witness :
    get_document dbAB docB.id = none
    ∧ get_document_by_gcs_id dbAB docB.gcs_document_id = Except.ok none
    ∧ get_document_by_dify_id dbAB docB.dify_document_id = Except.ok none
    ∧ (list_documents dbAB 1 10).total
        = (dbAB.filter fun e => e.deleted_at.isNone).length
    ∧ itemA ∈ (list_documents dbAB 1 10).items
    ∧ itemA.id ≠ docB.id := by
  have h := c6_soft_deleted_invisible dbAB docB (by decide) (by decide)
    (by decide) (by decide) (by decide)
  exact ⟨h.1, h.2.1, h.2.2.1, (h.2.2.2 1 10).1, by decide,
    (h.2.2.2 1 10).2 itemA (by decide)⟩

/-- C7: for every listing request with a positive page size, the
reported `total_pages` is the ceiling of `total / page_size`
(characterized by its Galois property) and the returned items are
ordered by creation time descending; listing page 2 with page size 10
over 25 live documents returns 10 items, total 25 and 3 total pages
(1-based page numbering). -/
theorem c7_pagination :
    (∀ db page page_size, 1 ≤ page_size →
      (∀ k, (list_documents db page page_size).total_pages ≤ k
          ↔ (list_documents db page page_size).total ≤ page_size * k)
      ∧ (list_documents db page page_size).items.Pairwise
          (fun a b => b.created_at ≤ a.created_at))
    ∧ (list_documents dbBig 2 10).items.length = 10
    ∧ (list_documents dbBig 2 10).total = 25
    ∧ (list_documents dbBig 2 10).total_pages = 3
    ∧ (list_documents dbBig 2 10).page = 2
    ∧ (list_documents dbBig 2 10).page_size = 10 := by
  refine ⟨?_, by decide, by decide, by decide, by decide, by decide⟩
  intro db page page_size hs
  constructor
  · intro k
    simp only [list_documents]
    rw [Nat.div_le_iff_le_mul_add_pred hs]
    omega
  · simp only [list_documents]
    rw [List.pairwise_map]
    have hsorted :
        List.Sorted createdDesc
          ((db.filter fun x => x.deleted_at.isNone).insertionSort createdDesc) :=
      List.sorted_insertionSort createdDesc _
    have hsub :
        List.Sublist
          ((((db.filter fun x => x.deleted_at.isNone).insertionSort
              createdDesc).drop ((page - 1) * page_size)).take page_size)
          ((db.filter fun x => x.deleted_at.isNone).insertionSort createdDesc) :=
      (List.take_sublist _ _).trans (List.drop_sublist _ _)
    exact List.Pairwise.sublist hsub hsorted

/-- C7 witness: for the two-row table, page 1 of size 10 satisfies the
ceiling property at `k = 1` and its items are in descending creation
order. -/
theorem c7_witness :
    ((list_documents dbAB 1 10).total_pages ≤ 1
      ↔ (list_documents dbAB 1 10).total ≤ 10 * 1)
    ∧ (list_documents dbAB 1 10).items.Pairwise
        (fun a b => b.created_at ≤ a.created_at) := by
  have h := c7_pagination.1 dbAB 1 10 (by decide)
  exact ⟨h.1 1, h.2⟩

/-- C3 witness: a 2-page, 100-byte PDF is returned as the single
original stream. -/
theorem c3_witness :
    1 ≤ 2 ∧ 2 ≤ MAX_PAGES ∧ 100 ≤ MAX_FILE_SIZE
    ∧ split_if_needed measureTiny 2 100 = (SplitOutcome.original, 0) :=
  ⟨by decide, by decide, by decide,
   c3_small_pdf_returned_unsplit measureTiny 2 100 (by decide) (by decide) (by decide)⟩

end SilverRag
